import Mathlib

/-!
Shallow embedding of `src/utils/ZipUtil.cpp` (the SumatraPDF mini-zip wrapper).

Strings (`TCHAR *`) are modelled as `List Nat` of character codepoints.
Machine 32-bit quantities are `Nat` reduced modulo `2^32`; the platform
size type (`size_t`) has a width parameter `W`, with arithmetic modulo `2^W`.
External collaborators (the minizip codec, the filesystem, codepage
conversion) are modelled as oracle parameters; repository helpers that are
not part of the source file (Vec::Find, str::EqI, path::IsAbsolute,
path::GetBaseName, file::Exists) are modelled from the description in the spec
of them.
-/

namespace ZipUtil

/-- The modulus `2^32` for `uint32_t` arithmetic. -/
def M32 : Nat := 4294967296

/-- Modelled from the spec: `_totlower`, "simple ASCII/codepoint lower-casing"
(C-locale `towlower`): ASCII upper-case letters map to lower case, every
other codepoint is unchanged. -/
def totlower (c : Nat) : Nat := if 65 ≤ c ∧ c ≤ 90 then c + 32 else c

/-- One shift step of the bit-serial CRC inner loop of `GetQuickHashI`:
`if (bits & 0x80000000) bits = (bits << 1) ^ 0x04C11DB7; else bits <<= 1;`
on `uint32_t`. -/
def crcShiftStep (bits : Nat) : Nat :=
  if bits &&& 0x80000000 ≠ 0 then ((bits <<< 1) % M32) ^^^ 0x04C11DB7
  else (bits <<< 1) % M32

/-- The eight iterations of the inner `for (int i = 0; i < 8; i++)` loop. -/
def crc8 (bits : Nat) : Nat :=
  crcShiftStep (crcShiftStep (crcShiftStep (crcShiftStep
    (crcShiftStep (crcShiftStep (crcShiftStep (crcShiftStep bits)))))))

/-- Update of the accumulator for one character in `GetQuickHashI`:
`bits = (crc ^ ((_totlower(*str) & 0xFF) << 24)) & 0xFF000000;` followed by
the eight shift steps and `crc = (crc << 8) ^ bits;` on `uint32_t`. -/
def hashStep (crc c : Nat) : Nat :=
  let bits := (crc ^^^ ((totlower c &&& 0xFF) <<< 24)) &&& 0xFF000000
  ((crc <<< 8) % M32) ^^^ crc8 bits

/-- `GetQuickHashI`: the case-independent CRC-32 variation, folding the
string left to right starting from `crc = 0`. -/
def GetQuickHashI (s : List Nat) : Nat := s.foldl hashStep 0

/-- Modelled from the spec: `str::EqI` (case-insensitive full-string
equality, `_tcsicmp == 0`): equal length and pointwise equal after
lower-casing. `StrUtil` is not under `src/`. -/
def EqI : List Nat → List Nat → Bool
  | [], [] => true
  | a :: as, b :: bs => totlower a = totlower b && EqI as bs
  | _, _ => false

/-- Modelled from the spec: `Vec::Find(el, startAt)` ("scan hash sequence
for matches starting from position `startAt`"): index of the first element
equal to `el` at position `≥ startAt`, or none. `Vec.h` is not under
`src/`. Auxiliary recursion carrying the absolute index. -/
def vecFindAux : List Nat → Nat → Nat → Option Nat
  | [], _, _ => none
  | x :: xs, el, idx => if x = el then some idx else vecFindAux xs el (idx + 1)

/-- Model of `Vec::Find(el, startAt)` over the whole list. -/
def vecFind (xs : List Nat) (el : Nat) (startAt : Nat) : Option Nat :=
  vecFindAux (xs.drop startAt) el startAt

/-- The fixed decode-buffer size `MAX_PATH` used in `ExtractFilenames`. -/
def MAX_PATH : Nat := 260

/-- Modelled from the spec: the bounded-buffer filename decode of
`ExtractFilenames` (`char fileName[MAX_PATH]` / `TCHAR fileNameT[MAX_PATH]`
filled by `unzGetCurrentFileInfo64` and `str::conv::FromCodePageBuf`,
neither under `src/`): a decoded name is stored truncated to the buffer
capacity, `MAX_PATH` characters including the terminator. -/
def truncName (n : List Nat) : List Nat := n.take (MAX_PATH - 1)

/-- The raw central-directory data of one archive entry, as delivered by
the codec during enumeration. -/
structure RawEntry where
  name : List Nat
  usz : Nat
  dosDate : Nat
  posValid : Bool

/-- The state of a `ZipFile` handle: the codec context pointer `uf`
(modelled as "open or not") and the parallel sequences built by
`ExtractFilenames`. -/
structure ZipFileSt where
  uf : Bool
  filenames : List (List Nat)
  filenameHashes : List Nat
  uncompressedSizes : List Nat
  dosDates : List Nat
  fileposValid : List Bool
  commentLen : Nat

/-- A handle whose `unzOpen2_64` succeeded: `ExtractFilenames` stores, per
entry, the (buffer-truncated) decoded name, `GetQuickHashI` of that stored
name, the entry metadata, and the position-cache validity. -/
def mkOpenHandle (es : List RawEntry) (commentLen : Nat) : ZipFileSt :=
  { uf := true
  , filenames := es.map (fun e => truncName e.name)
  , filenameHashes := es.map (fun e => GetQuickHashI (truncName e.name))
  , uncompressedSizes := es.map (fun e => e.usz)
  , dosDates := es.map (fun e => e.dosDate)
  , fileposValid := es.map (fun e => e.posValid)
  , commentLen := commentLen }

/-- A handle whose open failed: `uf` is null and `ExtractFilenames` never
ran, so every parallel sequence is empty and `commentLen` is `0`. -/
def closedHandle : ZipFileSt :=
  { uf := false, filenames := [], filenameHashes := [], uncompressedSizes := []
  , dosDates := [], fileposValid := [], commentLen := 0 }

/-- Model of `GetFileCount`: `filenames.Count()`. -/
def GetFileCount (st : ZipFileSt) : Nat := st.filenames.length

/-- The loop of `GetFileIndex`, with explicit fuel:
`for (int i = 0; (i = filenameHashes.Find(hash, i)) != -1; )`.
The loop variable is re-assigned to the found position `j` and — as the
body contains no increment — the next iteration calls `Find(hash, j)`
again. Result: `none` = fuel exhausted (the loop has not terminated),
`some none` = returned NOT_FOUND, `some (some j)` = returned index `j`. -/
def getFileIndexLoop (hashes : List Nat) (names : List (List Nat))
    (q : List Nat) (h : Nat) : Nat → Nat → Option (Option Nat)
  | 0, _ => none
  | fuel + 1, i =>
    match vecFind hashes h i with
    | none => some none
    | some j =>
      if EqI q (names.getD j []) then some (some j)
      else getFileIndexLoop hashes names q h fuel j

/-- Model of `GetFileIndex(filename)`: hash the query, then run the scan loop
starting from position 0, with the given fuel. -/
def GetFileIndexFuel (st : ZipFileSt) (q : List Nat) (fuel : Nat) :
    Option (Option Nat) :=
  getFileIndexLoop st.filenameHashes st.filenames q (GetQuickHashI q) fuel 0

/-- The success code `UNZ_OK` of the codec. -/
def UNZ_OK : Int := 0

/-- Observable outcome of `GetFileData(fileindex, len)`:
`result` is `some n` when a buffer is returned (with `*len = n`), `none`
for a NULL return; `allocSize` records the argument of the single
`Allocator::Alloc` call, `none` when allocation was never attempted;
`freed` records whether an allocated (non-null) buffer was freed on a
failure path; `locatedBy` records the stored name handed to the
`unzLocateFile` fallback, `none` when the fallback was not taken. -/
structure GFDResult where
  result : Option Nat
  allocSize : Option Nat
  freed : Bool
  locatedBy : Option (List Nat)
  deriving DecidableEq, Repr

/-- Model of `GetFileData(fileindex, len)` with the answers of the codec supplied as
oracles: `goErr` = `unzGoToFilePos64` result, `locErr` = `unzLocateFile`
result as a function of the (stored) name it is asked to find, `openErr` =
`unzOpenCurrentFilePassword` result, `allocOk` = whether `Alloc` returns a
buffer, `readBytes` = the byte count `unzReadCurrentFile` delivers,
`closeErr` = `unzCloseCurrentFile` result (non-zero = CRC mismatch). `W`
is the bit width of `size_t`. -/
def GetFileData (st : ZipFileSt) (fileindex : Nat) (W : Nat)
    (goErr : Int) (locErr : List Nat → Int) (openErr : Int)
    (allocOk : Bool) (readBytes : Nat) (closeErr : Int) : GFDResult :=
  if st.uf = false then ⟨none, none, false, none⟩
  else if st.filenames.length ≤ fileindex then ⟨none, none, false, none⟩
  else
    let storedName := st.filenames.getD fileindex []
    let err0 : Int := if st.fileposValid.getD fileindex false then goErr else -1
    let locatedBy : Option (List Nat) :=
      if err0 = UNZ_OK then none else some storedName
    let err1 : Int := if err0 = UNZ_OK then err0 else locErr storedName
    if err1 ≠ UNZ_OK then ⟨none, none, false, locatedBy⟩
    else if openErr ≠ UNZ_OK then ⟨none, none, false, locatedBy⟩
    else
      let usz := st.uncompressedSizes.getD fileindex 0
      let len2 := usz % 2 ^ W
      if len2 ≠ usz ∨ (len2 + 2) % 2 ^ W < 2 % 2 ^ W then
        ⟨none, none, false, locatedBy⟩
      else
        let asize := (len2 + 2) % 2 ^ W
        if allocOk = false then ⟨none, some asize, false, locatedBy⟩
        else if readBytes ≠ len2 then ⟨none, some asize, true, locatedBy⟩
        else if closeErr ≠ UNZ_OK then ⟨none, some asize, true, locatedBy⟩
        else ⟨some len2, some asize, false, locatedBy⟩

/-- The invalid `FILETIME` sentinel `{ -1, -1 }`: both `DWORD` members are
`0xFFFFFFFF`. -/
def invalidFileTime : Nat × Nat := (4294967295, 4294967295)

/-- Model of `GetFileTime(fileindex)` with the DOS-date conversion
(`DosDateTimeToFileTime` then `LocalFileTimeToFileTime`) as an oracle. -/
def GetFileTime (st : ZipFileSt) (fileindex : Nat)
    (conv : Nat → Nat × Nat) : Nat × Nat :=
  if st.uf = true ∧ fileindex < st.dosDates.length then
    conv (st.dosDates.getD fileindex 0)
  else invalidFileTime

/-- Model of `GetComment(len)`: allocates `commentLen + 1` zeroed bytes, fails when
the allocation or the handle is null or `unzGetGlobalComment` returns a
non-positive count (`readRet` oracle); on success reports `commentLen`. -/
def GetComment (st : ZipFileSt) (allocOk : Bool) (readRet : Int) :
    Option Nat :=
  if allocOk = false ∨ st.uf = false then none
  else if readRet ≤ 0 then none
  else some st.commentLen

/-- Model of `str::TransChars`: every `/` in the
whole buffer becomes `\`. -/
def TransChars (s : List Nat) : List Nat :=
  s.map (fun c => if c = 47 then 92 else c)

/-- Model of `str::EndsWith` for the single-char suffix `\`. -/
def endsWithBS (s : List Nat) : Bool := s.getLast? = some 92

/-- The destination path built by `UnzipFile`: append `dir`, append `"\\"`
unless the buffer already ends with a backslash, then either append the
override name, or append the entry name and translate `/` to `\` over the
entire accumulated buffer. -/
def unzipDestPath (dir fname : List Nat) (override : Option (List Nat)) :
    List Nat :=
  let fp := if endsWithBS dir then dir else dir ++ [92]
  match override with
  | some n => fp ++ n
  | none => TransChars (fp ++ fname)

/-- Joining `dir` and `n` with the backslash check `UnzipFile` performs
(a compositional description used to state properties of
`unzipDestPath`). -/
def joinBS (dir n : List Nat) : List Nat :=
  (if endsWithBS dir then dir else dir ++ [92]) ++ n

/-- Definition following the words of the claim, for comparison with the code:
"joining destDir with exactly one path separator to overrideName, or ...
to the entry name with its internal `/` separators translated ... (only
the name is translated)". -/
def claimedDestPath (dir fname : List Nat) (override : Option (List Nat)) :
    List Nat :=
  (if endsWithBS dir then dir else dir ++ [92]) ++
    (match override with
     | some n => n
     | none => TransChars fname)

/-- Observable outcome of `UnzipFile`: `ok` = return value, `freed` =
whether the `GetFileData` buffer was freed, `path` = the destination path
handed to `file::WriteAll`. -/
structure UnzipResult where
  ok : Bool
  freed : Bool
  path : Option (List Nat)
  deriving DecidableEq, Repr

/-- Model of `UnzipFile(filename, dir, unzippedName)` with `GetFileData` success and
`file::WriteAll` (external) as oracles: a null `GetFileData` returns false
at once; otherwise the destination path is built, the whole buffer is
written, and the buffer is freed whatever `WriteAll` returned. -/
def UnzipFile (dataOk : Bool) (writeOk : List Nat → Bool)
    (dir fname : List Nat) (override : Option (List Nat)) : UnzipResult :=
  if dataOk = false then ⟨false, false, none⟩
  else
    let p := unzipDestPath dir fname override
    ⟨writeOk p, true, some p⟩

/-- Modelled from the spec: `path::IsAbsolute` ("absolute/drive-rooted
paths", `FileUtil` is not under `src/`): a path is absolute when it starts
with a separator or is drive-rooted (`:` as its second character). -/
def IsAbsolute (p : List Nat) : Bool :=
  p.headD 0 = 47 || p.headD 0 = 92 || p.getD 1 0 = 58

/-- Modelled from the spec: `path::GetBaseName` ("derive the archive name
from its base filename only", `FileUtil` is not under `src/`): the suffix
after the last path separator. -/
def GetBaseName (p : List Nat) : List Nat :=
  (p.reverse.takeWhile (fun c => c ≠ 47 ∧ c ≠ 92)).reverse

/-- Model of `ZipCreator::AddFile(filePath, nameInZip)` with `file::Exists`
(external filesystem) as an oracle predicate. The creator state is the
flat `pathsAndZipNames` list; on success the pair (path, chosen name) is
appended. Returns (return value, new state). -/
def AddFile (fsExists : List Nat → Bool) (st : List (List Nat))
    (filePath : List Nat) (nameInZip : Option (List Nat)) :
    Bool × List (List Nat) :=
  if fsExists filePath = false then (false, st)
  else
    let name :=
      match nameInZip with
      | some n => n
      | none => if IsAbsolute filePath then GetBaseName filePath else filePath
    (true, st ++ [filePath, name])

/-- Convert a Lean string literal to the codepoint list used by the
model (convenience for concrete inputs). -/
def strN (s : String) : List Nat := s.toList.map Char.toNat

/-! ## Helper lemmas -/

/-- The per-character mix of `GetQuickHashI` reads a character only through
`totlower c &&& 255`. -/
theorem hashStep_congr (crc : Nat) {c d : Nat}
    (h : totlower c &&& 255 = totlower d &&& 255) :
    hashStep crc c = hashStep crc d := by
  unfold hashStep
  rw [h]

/-- Folding the hash over two strings with equal case-folded byte sequences
gives the same accumulator, from any starting accumulator. -/
theorem foldl_hashStep_congr :
    ∀ (a b : List Nat) (crc : Nat),
      a.map (fun c => totlower c &&& 255) = b.map (fun c => totlower c &&& 255) →
      a.foldl hashStep crc = b.foldl hashStep crc := by
  intro a
  induction a with
  | nil =>
    intro b crc h
    cases b with
    | nil => rfl
    | cons y ys => simp at h
  | cons x xs ih =>
    intro b crc h
    cases b with
    | nil => simp at h
    | cons y ys =>
      simp only [List.map_cons, List.cons.injEq] at h
      simp only [List.foldl_cons]
      rw [hashStep_congr crc h.1]
      exact ih ys (hashStep crc y) h.2

/-- `EqI` is reflexive. -/
theorem EqI_refl (s : List Nat) : EqI s s = true := by
  induction s with
  | nil => rfl
  | cons a as ih => simp [EqI, ih]

/-- The concrete handle exhibiting a quick-hash collision: its single entry
is named U+0161 (the character `š`), whose case-folded low byte equals the
one of `a`, so `GetQuickHashI` maps it and the one-character name `a` to
the same 32-bit value although the names are not case-insensitively
equal. -/
def collisionHandle : ZipFileSt := mkOpenHandle [⟨[353], 10, 0, true⟩] 0

/-- A failed candidate does not advance the scan: when `Find(hash, i)`
returns `j` and the full comparison at `j` fails, one loop iteration moves
the state from `i` to `j` (and when `i = j`, nowhere). -/
theorem getFileIndexLoop_stuck (hashes : List Nat) (names : List (List Nat))
    (q : List Nat) (h : Nat) (fuel i j : Nat)
    (hf : vecFind hashes h i = some j)
    (he : EqI q (names.getD j []) = false) :
    getFileIndexLoop hashes names q h (fuel + 1) i =
      getFileIndexLoop hashes names q h fuel j := by
  simp only [getFileIndexLoop, hf, he]
  simp

theorem collision_step (f : Nat) :
    GetFileIndexFuel collisionHandle [97] (f + 1) =
      GetFileIndexFuel collisionHandle [97] f := by
  have h1 : vecFind collisionHandle.filenameHashes (GetQuickHashI [97]) 0 =
      some 0 := by decide
  have h2 : EqI [97] (collisionHandle.filenames.getD 0 []) = false := by decide
  exact getFileIndexLoop_stuck _ _ _ _ f 0 0 h1 h2

theorem collision_none : ∀ f, GetFileIndexFuel collisionHandle [97] f = none := by
  intro f
  induction f with
  | zero => rfl
  | succ g ih => rw [collision_step g, ih]

/-! ## Claim theorems -/

/-- C5: for all filenames that differ only in character case (pointwise
equal after lower-casing), `GetQuickHashI` gives the same hash: the
character is folded by `_totlower` before it is mixed into the CRC-style
accumulator. -/
theorem quickHash_case_insensitive (a b : List Nat)
    (h : a.map totlower = b.map totlower) :
    GetQuickHashI a = GetQuickHashI b := by
  unfold GetQuickHashI
  apply foldl_hashStep_congr
  have : (a.map totlower).map (fun c => c &&& 255) =
      (b.map totlower).map (fun c => c &&& 255) := by rw [h]
  simpa [List.map_map, Function.comp] using this

/-- Witness for C5 at the concrete pair `Report.TXT` / `report.txt`. -/
theorem quickHash_case_insensitive_witness :
    (strN "Report.TXT").map totlower = (strN "report.txt").map totlower ∧
    GetQuickHashI (strN "Report.TXT") = GetQuickHashI (strN "report.txt") :=
  ⟨by decide, quickHash_case_insensitive _ _ (by decide)⟩

/-- C6 counterexample: the quick hash is not order-independent. The
two-character names `ab` and `ba` are permutations of each other, yet
their hashes differ. -/
theorem quickHash_not_order_independent_cex :
    List.Perm [97, 98] [98, 97] ∧
    GetQuickHashI [97, 98] ≠ GetQuickHashI [98, 97] :=
  ⟨List.Perm.swap 98 97 [], by decide⟩

/-- C6 amended: the quick hash is determined by the in-order sequence of
case-folded low bytes of the characters, but it is not invariant under
permutation of the characters. -/
theorem quickHash_fold_sequence_determined :
    (∀ a b : List Nat,
      a.map (fun c => totlower c &&& 255) = b.map (fun c => totlower c &&& 255) →
      GetQuickHashI a = GetQuickHashI b) ∧
    ¬ (∀ a b : List Nat, List.Perm a b → GetQuickHashI a = GetQuickHashI b) := by
  constructor
  · intro a b h
    exact foldl_hashStep_congr a b 0 h
  · intro h
    have hp : List.Perm [97, 98] [98, 97] := List.Perm.swap 98 97 []
    have := h [97, 98] [98, 97] hp
    revert this
    decide

/-- Witness applying the positive half of the C6 amendment at a concrete
pair with equal case-folded byte sequences. -/
theorem quickHash_fold_sequence_determined_witness :
    ([97].map (fun c => totlower c &&& 255) =
      [65].map (fun c => totlower c &&& 255)) ∧
    GetQuickHashI [97] = GetQuickHashI [65] :=
  ⟨by decide, quickHash_fold_sequence_determined.1 [97] [65] (by decide)⟩

/-- C1: on `collisionHandle`, the query `a` collides in hash with the
stored name `š` but matches no entry case-insensitively, so the claimed
contract requires NOT_FOUND; instead `GetFileIndex` never returns for any
amount of fuel, because `Find(hash, i)` is re-run with an unchanged scan
position. -/
theorem getFileIndex_collision_never_returns :
    GetQuickHashI [97] = GetQuickHashI [353] ∧
    EqI [97] [353] = false ∧
    ∀ fuel, GetFileIndexFuel collisionHandle [97] fuel = none :=
  ⟨by decide, by decide, collision_none⟩

/-- C2: the scan of `GetFileIndex` does not advance past a hash-matching
candidate whose full case-insensitive comparison fails: adding one unit of
fuel leaves the outcome unchanged, so the lookup never terminates on the
collision input, contrary to the claim. -/
theorem getFileIndex_collision_loop_stuck :
    (∀ fuel, GetFileIndexFuel collisionHandle [97] (fuel + 1) =
      GetFileIndexFuel collisionHandle [97] fuel) ∧
    (∀ fuel r, GetFileIndexFuel collisionHandle [97] fuel ≠ some r) := by
  refine ⟨collision_step, fun fuel r h => ?_⟩
  rw [collision_none fuel] at h
  exact Option.noConfusion h

/-- Arithmetic bridge: if the reported size does not survive the cast to
`size_t`, or growing it by the two-byte terminator wraps below the
original, then the check written in the code (`len2 != size || len2 +
sizeof(WCHAR) < sizeof(WCHAR)`) fires. -/
theorem wrapCondition (usz W : Nat) (hW : 2 ≤ W)
    (h : usz % 2 ^ W ≠ usz ∨ (usz % 2 ^ W + 2) % 2 ^ W < usz % 2 ^ W) :
    usz % 2 ^ W ≠ usz ∨ (usz % 2 ^ W + 2) % 2 ^ W < 2 % 2 ^ W := by
  rcases h with h | h
  · exact Or.inl h
  · right
    have hA : 4 ≤ 2 ^ W := by
      calc (4 : Nat) = 2 ^ 2 := by norm_num
      _ ≤ 2 ^ W := Nat.pow_le_pow_right (by norm_num) hW
    have hl : usz % 2 ^ W < 2 ^ W := Nat.mod_lt _ (by omega)
    have h2 : 2 % 2 ^ W = 2 := Nat.mod_eq_of_lt (by omega)
    rw [h2]
    by_cases hc : usz % 2 ^ W + 2 < 2 ^ W
    · rw [Nat.mod_eq_of_lt hc] at h
      omega
    · have hsub : (usz % 2 ^ W + 2) % 2 ^ W = usz % 2 ^ W + 2 - 2 ^ W := by
        rw [Nat.mod_eq_sub_mod (by omega), Nat.mod_eq_of_lt (by omega)]
      rw [hsub]
      omega

/-- C3: whenever the reported uncompressed size of the entry either does
not survive the conversion to the platform size type or wraps that type
when grown by the two-byte terminator padding (the grown size compares
below the original), `GetFileData` returns null and `Alloc` is never
called — for every codec/allocator behaviour. -/
theorem getFileData_overflow_guard (st : ZipFileSt) (fileindex W : Nat)
    (goErr : Int) (locErr : List Nat → Int) (openErr : Int)
    (allocOk : Bool) (readBytes : Nat) (closeErr : Int)
    (hW : 2 ≤ W)
    (hwrap : st.uncompressedSizes.getD fileindex 0 % 2 ^ W ≠
        st.uncompressedSizes.getD fileindex 0 ∨
      (st.uncompressedSizes.getD fileindex 0 % 2 ^ W + 2) % 2 ^ W <
        st.uncompressedSizes.getD fileindex 0 % 2 ^ W) :
    (GetFileData st fileindex W goErr locErr openErr allocOk readBytes
      closeErr).result = none ∧
    (GetFileData st fileindex W goErr locErr openErr allocOk readBytes
      closeErr).allocSize = none := by
  have hg := wrapCondition (st.uncompressedSizes.getD fileindex 0) W hW hwrap
  simp only [GetFileData]
  split_ifs <;> first | exact ⟨rfl, rfl⟩ | exact absurd hg (by assumption)

/-- Witness for C3: a 32-bit platform and an entry reporting
`0xFFFFFFFF` bytes, whose padded size wraps. -/
theorem getFileData_overflow_guard_witness :
    (2 ≤ 32 ∧
      ((4294967295 : Nat) % 2 ^ 32 ≠ 4294967295 ∨
        ((4294967295 : Nat) % 2 ^ 32 + 2) % 2 ^ 32 < 4294967295 % 2 ^ 32)) ∧
    (GetFileData (mkOpenHandle [⟨[97], 4294967295, 0, true⟩] 0) 0 32 0
      (fun _ => 0) 0 true 0 0).result = none ∧
    (GetFileData (mkOpenHandle [⟨[97], 4294967295, 0, true⟩] 0) 0 32 0
      (fun _ => 0) 0 true 0 0).allocSize = none :=
  ⟨⟨by norm_num, by decide⟩,
    getFileData_overflow_guard _ 0 32 0 (fun _ => 0) 0 true 0 0
      (by norm_num) (by decide)⟩

/-- C4: a read that delivers fewer than `uncompressedSize` bytes makes
`GetFileData` return null (and free the buffer whenever one was actually
allocated), and a non-OK `unzCloseCurrentFile` (CRC mismatch) also forces
a null result, even when the byte count matched exactly. -/
theorem getFileData_short_read_or_crc (st : ZipFileSt) (fileindex W : Nat)
    (goErr : Int) (locErr : List Nat → Int) (openErr : Int)
    (readBytes : Nat) (closeErr : Int)
    (huf : st.uf = true)
    (hidx : fileindex < st.filenames.length)
    (hpos : st.fileposValid.getD fileindex false = true)
    (hgo : goErr = UNZ_OK)
    (hopen : openErr = UNZ_OK)
    (hfit : st.uncompressedSizes.getD fileindex 0 % 2 ^ W =
      st.uncompressedSizes.getD fileindex 0)
    (hnowrap : ¬ (st.uncompressedSizes.getD fileindex 0 % 2 ^ W + 2) % 2 ^ W <
      2 % 2 ^ W) :
    (readBytes ≠ st.uncompressedSizes.getD fileindex 0 % 2 ^ W →
      (GetFileData st fileindex W goErr locErr openErr true readBytes
        closeErr).result = none ∧
      (GetFileData st fileindex W goErr locErr openErr true readBytes
        closeErr).freed = true) ∧
    (readBytes = st.uncompressedSizes.getD fileindex 0 % 2 ^ W →
      closeErr ≠ UNZ_OK →
      (GetFileData st fileindex W goErr locErr openErr true readBytes
        closeErr).result = none ∧
      (GetFileData st fileindex W goErr locErr openErr true readBytes
        closeErr).freed = true) ∧
    (readBytes = st.uncompressedSizes.getD fileindex 0 % 2 ^ W →
      closeErr = UNZ_OK →
      (GetFileData st fileindex W goErr locErr openErr true readBytes
        closeErr).result =
        some (st.uncompressedSizes.getD fileindex 0 % 2 ^ W)) := by
  refine ⟨fun hr => ?_, fun hr hc => ?_, fun hr hc => ?_⟩ <;>
    simp_all [GetFileData, UNZ_OK] <;>
    rw [if_neg (Nat.not_le.mpr hidx), if_neg (Nat.not_lt.mpr hnowrap)] <;>
    first | exact ⟨rfl, rfl⟩ | rfl

/-- Witness for C4: an exact-length read whose `unzCloseCurrentFile`
reports a CRC error still yields null, with the buffer freed. -/
theorem getFileData_short_read_or_crc_witness :
    ((mkOpenHandle [⟨[97], 5, 0, true⟩] 0).uf = true ∧
      0 < (mkOpenHandle [⟨[97], 5, 0, true⟩] 0).filenames.length ∧
      (5 : Nat) = (mkOpenHandle [⟨[97], 5, 0, true⟩] 0).uncompressedSizes.getD
        0 0 % 2 ^ 32 ∧ (1 : Int) ≠ UNZ_OK) ∧
    (GetFileData (mkOpenHandle [⟨[97], 5, 0, true⟩] 0) 0 32 0 (fun _ => 0) 0
      true 5 1).result = none ∧
    (GetFileData (mkOpenHandle [⟨[97], 5, 0, true⟩] 0) 0 32 0 (fun _ => 0) 0
      true 5 1).freed = true :=
  ⟨⟨rfl, by decide, by decide, by decide⟩,
    (getFileData_short_read_or_crc (mkOpenHandle [⟨[97], 5, 0, true⟩] 0) 0 32
      0 (fun _ => 0) 0 5 1 rfl (by decide) (by decide) rfl rfl (by decide)
      (by decide)).2.1 (by decide) (by decide)⟩

/-- C7: on a handle whose open failed, every query operation fails softly:
`GetFileData` returns null without touching the codec or the allocator,
`GetFileTime` returns the invalid-timestamp sentinel, `GetComment` returns
null, the entry count is zero, and every name lookup reports NOT_FOUND. -/
theorem closedHandle_soft_fail :
    (∀ fileindex W goErr locErr openErr allocOk readBytes closeErr,
      GetFileData closedHandle fileindex W goErr locErr openErr allocOk
        readBytes closeErr = ⟨none, none, false, none⟩) ∧
    (∀ fileindex conv,
      GetFileTime closedHandle fileindex conv = invalidFileTime) ∧
    (∀ allocOk readRet, GetComment closedHandle allocOk readRet = none) ∧
    GetFileCount closedHandle = 0 ∧
    (∀ q fuel, GetFileIndexFuel closedHandle q (fuel + 1) = some none) := by
  refine ⟨fun _ _ _ _ _ _ _ _ => rfl, fun _ _ => ?_, fun allocOk _ => ?_,
    rfl, fun _ _ => rfl⟩
  · simp [GetFileTime, closedHandle]
  · cases allocOk <;> simp [GetComment, closedHandle]

/-- C8: `AddFile` succeeds exactly when the source path exists on the
filesystem, and when `nameInZip` is omitted the stored archive name is the
base filename for an absolute source path and the source path verbatim
otherwise; on success the (path, name) pair is appended to the pending
list. -/
theorem addFile_exists_and_name (fsExists : List Nat → Bool)
    (st : List (List Nat)) (filePath : List Nat)
    (nameInZip : Option (List Nat)) :
    ((AddFile fsExists st filePath nameInZip).1 = true ↔
      fsExists filePath = true) ∧
    (fsExists filePath = true →
      (AddFile fsExists st filePath none).2 =
        st ++ [filePath,
          if IsAbsolute filePath then GetBaseName filePath else filePath]) ∧
    (fsExists filePath = true →
      (AddFile fsExists st filePath (some (nameInZip.getD []))).2 =
        st ++ [filePath, nameInZip.getD []]) := by
  cases hfs : fsExists filePath <;> simp [AddFile, hfs]

/-- Witness for C8 at the concrete scenario
`addFile("/abs/path/readme.txt", null)`: the call succeeds under an
always-true existence oracle and stores the base name `readme.txt`. -/
theorem addFile_exists_and_name_witness :
    ((fun _ : List Nat => true) (strN "/abs/path/readme.txt") = true) ∧
    (AddFile (fun _ => true) [] (strN "/abs/path/readme.txt") none).2 =
      [] ++ [strN "/abs/path/readme.txt",
        if IsAbsolute (strN "/abs/path/readme.txt") then
          GetBaseName (strN "/abs/path/readme.txt")
        else strN "/abs/path/readme.txt"] ∧
    GetBaseName (strN "/abs/path/readme.txt") = strN "readme.txt" ∧
    IsAbsolute (strN "/abs/path/readme.txt") = true :=
  ⟨rfl,
    (addFile_exists_and_name (fun _ => true) [] (strN "/abs/path/readme.txt")
      none).2.1 rfl,
    by decide, by decide⟩

/-- C9 counterexample: with destination directory `C:/out` (containing a
forward slash) and entry `dir/file.bin`, the path built by `UnzipFile`
differs from the path the claim describes: the code translates the
separators of the whole joined path, destination directory included,
producing `C:\out\dir\file.bin` instead of the claimed
`C:/out\dir\file.bin`. -/
theorem unzipPath_translates_destdir_cex :
    unzipDestPath (strN "C:/out") (strN "dir/file.bin") none ≠
      claimedDestPath (strN "C:/out") (strN "dir/file.bin") none ∧
    unzipDestPath (strN "C:/out") (strN "dir/file.bin") none =
      strN "C:\\out\\dir\\file.bin" ∧
    claimedDestPath (strN "C:/out") (strN "dir/file.bin") none =
      strN "C:/out\\dir\\file.bin" :=
  ⟨by decide, by decide, by decide⟩

/-- C9 amended: `UnzipFile` joins the destination directory and the name
with a backslash (appended unless the directory already ends with one);
with no override name the `/`-to-`\` translation applies to the entire
joined path, destination directory included, while an override name is
appended without any translation; a successful `GetFileData` buffer is
freed whatever the write outcome, and a failed `GetFileData` fails the
call without any write. -/
theorem unzipFile_amended (dir fname n : List Nat) (ov : Option (List Nat))
    (writeOk : List Nat → Bool) (dataOk : Bool) :
    unzipDestPath dir fname none = TransChars (joinBS dir fname) ∧
    unzipDestPath dir fname (some n) = joinBS dir n ∧
    (dataOk = true →
      UnzipFile dataOk writeOk dir fname ov =
        ⟨writeOk (unzipDestPath dir fname ov), true,
          some (unzipDestPath dir fname ov)⟩) ∧
    (dataOk = false →
      UnzipFile dataOk writeOk dir fname ov = ⟨false, false, none⟩) :=
  ⟨rfl, rfl, fun h => by simp [UnzipFile, h], fun h => by simp [UnzipFile, h]⟩

/-- Witness for C9 at the spec scenario: entry `dir/file.bin` extracted to
`C:\out` goes to `C:\out\dir\file.bin`, the buffer is freed even though
the write fails. -/
theorem unzipFile_amended_witness :
    (true = true) ∧
    UnzipFile true (fun _ => false) (strN "C:\\out") (strN "dir/file.bin")
      none =
      ⟨false, true,
        some (unzipDestPath (strN "C:\\out") (strN "dir/file.bin") none)⟩ ∧
    unzipDestPath (strN "C:\\out") (strN "dir/file.bin") none =
      strN "C:\\out\\dir\\file.bin" :=
  ⟨rfl,
    (unzipFile_amended (strN "C:\\out") (strN "dir/file.bin") [] none
      (fun _ => false) true).2.2.1 rfl,
    by decide⟩

/-- C10: an entry whose decoded name exceeds the `MAX_PATH` decode buffer
is stored truncated to `MAX_PATH - 1` characters rather than rejected
(the entry count still grows), the by-name lookup operates on (and finds)
the truncated name, and the by-name re-location fallback inside
`GetFileData` hands the codec the truncated stored name. -/
theorem longName_truncated_not_rejected (n : List Nat) (usz dd W : Nat)
    (goErr : Int) (locErr : List Nat → Int) (openErr : Int) (allocOk : Bool)
    (readBytes : Nat) (closeErr : Int)
    (h : MAX_PATH - 1 < n.length) :
    GetFileCount (mkOpenHandle [⟨n, usz, dd, false⟩] 0) = 1 ∧
    (mkOpenHandle [⟨n, usz, dd, false⟩] 0).filenames = [truncName n] ∧
    (truncName n).length = MAX_PATH - 1 ∧
    truncName n ≠ n ∧
    GetFileIndexFuel (mkOpenHandle [⟨n, usz, dd, false⟩] 0) (truncName n) 1 =
      some (some 0) ∧
    (GetFileData (mkOpenHandle [⟨n, usz, dd, false⟩] 0) 0 W goErr locErr
      openErr allocOk readBytes closeErr).locatedBy = some (truncName n) := by
  have hlen : (truncName n).length = MAX_PATH - 1 := by
    simp [truncName]
    omega
  refine ⟨rfl, rfl, hlen, ?_, ?_, ?_⟩
  · intro he
    rw [he] at hlen
    omega
  · show getFileIndexLoop [GetQuickHashI (truncName n)] [truncName n]
      (truncName n) (GetQuickHashI (truncName n)) 1 0 = some (some 0)
    simp [getFileIndexLoop, vecFind, vecFindAux, EqI_refl]
  · simp [GetFileData, mkOpenHandle, UNZ_OK, apply_ite GFDResult.locatedBy,
      ite_self]

/-- Witness for C10 at a 300-character name: stored truncated to 259
characters, still enumerated, found by its truncated name, and re-located
by the truncated name. -/
theorem longName_truncated_not_rejected_witness :
    MAX_PATH - 1 < (List.replicate 300 97).length ∧
    (GetFileCount (mkOpenHandle [⟨List.replicate 300 97, 0, 0, false⟩] 0) =
      1 ∧
    (mkOpenHandle [⟨List.replicate 300 97, 0, 0, false⟩] 0).filenames =
      [truncName (List.replicate 300 97)] ∧
    (truncName (List.replicate 300 97)).length = MAX_PATH - 1 ∧
    truncName (List.replicate 300 97) ≠ List.replicate 300 97 ∧
    GetFileIndexFuel (mkOpenHandle [⟨List.replicate 300 97, 0, 0, false⟩] 0)
      (truncName (List.replicate 300 97)) 1 = some (some 0) ∧
    (GetFileData (mkOpenHandle [⟨List.replicate 300 97, 0, 0, false⟩] 0) 0 32
      0 (fun _ => 0) 0 true 0 0).locatedBy =
      some (truncName (List.replicate 300 97))) :=
  ⟨by rw [List.length_replicate]; norm_num [MAX_PATH],
    longName_truncated_not_rejected (List.replicate 300 97) 0 0 32 0
      (fun _ => 0) 0 true 0 0
      (by rw [List.length_replicate]; norm_num [MAX_PATH])⟩

end ZipUtil
